import Mathlib

/-!
Verification of the multi-source alignment engine of
`odd_collector/adapters/redshift/mappers/metadata.py`:
the three merge-join classes (`MetadataSchemas`, `MetadataTables`,
`MetadataColumns`), the dependency extractor
(`MetadataTable.dependencies`), and the metadata projector
(`_append_metadata_extension`).

Python exceptions are modelled with an explicit `Except PyError` result;
the record shapes declared in `models.py` (not part of the alignment
module) are modelled from the spec as structures carrying the
identity-key fields read by the alignment code plus the remaining
positional fields abstracted as `rest`.
-/

set_option autoImplicit false

/-- The Python exceptions the modelled code can raise. -/
inductive PyError where
  | typeError
  | attributeError
  | keyError
deriving DecidableEq

/-- Modelled from the spec: a positional row tuple returned by the
query-execution collaborator. Rows "must decode into the fixed field
shape declared for that (kind, source) combination"; the field shapes
live in `models.py`, which is outside the alignment module, so a row is
modelled as either its decoded record or a tuple of the wrong shape. -/
inductive PyRow (α : Type) where
  | ok (r : α)
  | malformed
deriving DecidableEq

/-- Modelled from the spec: positional decoding of a row tuple into a
record shape (`MetadataSchemaBase(*schema)` and friends); a tuple of the
wrong shape raises `TypeError`. -/
def PyRow.decode {α : Type} : PyRow α → Except PyError α
  | .ok r => .ok r
  | .malformed => .error .typeError

/-- Modelled from the spec: base schema record (`MetadataSchemaBase` in
`models.py`); the alignment code reads `database_name` and
`schema_name`, the remaining positional fields are `rest`. -/
structure MetadataSchemaBase where
  database_name : String
  schema_name : String
  rest : List (Option String)
deriving DecidableEq

/-- Modelled from the spec: redshift-specific schema record. -/
structure MetadataSchemaRedshift where
  database_name : String
  schema_name : String
  rest : List (Option String)
deriving DecidableEq

/-- Modelled from the spec: external-table schema record; its identity
fields use the source-specific names `databasename`/`schemaname`. -/
structure MetadataSchemaExternal where
  databasename : String
  schemaname : String
  rest : List (Option String)
deriving DecidableEq

/-- Modelled from the spec: base table record; its identity fields use
the names `table_catalog`/`table_schema`/`table_name` read at lines
178-180 of the source. -/
structure MetadataTableBase where
  table_catalog : String
  table_schema : String
  table_name : String
  rest : List (Option String)
deriving DecidableEq

/-- Modelled from the spec: `svv_tables`-style table record carrying the
optional view definition text `view_ddl`. -/
structure MetadataTableAll where
  database_name : String
  schema_name : String
  table_name : String
  view_ddl : Option String
  rest : List (Option String)
deriving DecidableEq

/-- Modelled from the spec: redshift-specific table record. -/
structure MetadataTableRedshift where
  database_name : String
  schema_name : String
  table_name : String
  rest : List (Option String)
deriving DecidableEq

/-- Modelled from the spec: external-table record with source-specific
identity field names. -/
structure MetadataTableExternal where
  databasename : String
  schemaname : String
  tablename : String
  rest : List (Option String)
deriving DecidableEq

/-- Modelled from the spec: extended-info table record with
source-specific identity field names `database`/`schema`/`table`. -/
structure MetadataTableInfo where
  database : String
  schema : String
  table : String
  rest : List (Option String)
deriving DecidableEq

/-- Modelled from the spec: base column record. -/
structure MetadataColumnBase where
  database_name : String
  schema_name : String
  table_name : String
  column_name : String
  ordinal_position : Int
  rest : List (Option String)
deriving DecidableEq

/-- Modelled from the spec: redshift-specific column record; the
alignment code compares its `database_name`, `schema_name`,
`table_name` and `ordinal_position` fields. -/
structure MetadataColumnRedshift where
  database_name : String
  schema_name : String
  table_name : String
  ordinal_position : Int
  rest : List (Option String)
deriving DecidableEq

/-- Modelled from the spec: external column record with source-specific
identity field names, the ordinal being `columnnum`. -/
structure MetadataColumnExternal where
  databasename : String
  schemaname : String
  tablename : String
  columnnum : Int
  rest : List (Option String)
deriving DecidableEq

/-- `Dependency` dataclass: a table referenced by a view definition. -/
structure Dependency where
  name : String
  schema : String
deriving DecidableEq

/-- `Dependency.uid`: the derived identity string `schema.name`. -/
def Dependency.uid (d : Dependency) : String :=
  d.schema ++ "." ++ d.name

/-- `MetadataSchema` merged object. The aligner always assigns the
identity-key fields and the base slot at construction, so they are
modelled as plain fields; auxiliary slots are optional. -/
structure MetadataSchema where
  database_name : String
  schema_name : String
  base : MetadataSchemaBase
  redshift : Option MetadataSchemaRedshift
  external : Option MetadataSchemaExternal
deriving DecidableEq

/-- `MetadataColumn` merged object. -/
structure MetadataColumn where
  database_name : String
  schema_name : String
  table_name : String
  column_name : String
  ordinal_position : Int
  base : MetadataColumnBase
  redshift : Option MetadataColumnRedshift
  external : Option MetadataColumnExternal
deriving DecidableEq

/-- `MetadataTable` merged object, including the `columns` and
`primary_keys` fields filled in by later callers. -/
structure MetadataTable where
  database_name : String
  schema_name : String
  table_name : String
  base : MetadataTableBase
  all : Option MetadataTableAll
  redshift : Option MetadataTableRedshift
  external : Option MetadataTableExternal
  info : Option MetadataTableInfo
  columns : List MetadataColumn := []
  primary_keys : List String := []
deriving DecidableEq

/-- `MetadataTable.as_dependency`. -/
def MetadataTable.as_dependency (t : MetadataTable) : Dependency :=
  { name := t.table_name, schema := t.schema_name }

/-- The normalization at line 86 of the source: the view text with every
parenthesis character removed, `view_ddl.replace("(", "").replace(")", "")`. -/
def stripParens (s : String) : String :=
  (s.replace "(" "").replace ")" ""

/-- The per-identifier branch of `MetadataTable.dependencies`
(lines 90-103): split the identifier on the dot; more than two
components are skipped (a warning is logged), two components give
`Dependency(schema=first, name=second)`, one component defaults the
schema to `"public"`. -/
def depOfTable (table : String) : Option Dependency :=
  let schema_name := table.splitOn "."
  if schema_name.length > 2 then
    none
  else if schema_name.length = 2 then
    some { name := schema_name.getD 1 "", schema := schema_name.getD 0 "" }
  else
    some { name := schema_name.getD 0 "", schema := "public" }

/-- `MetadataTable.dependencies` (lines 80-109). The external
`sql_metadata.Parser(...).tables` computation is passed in as `parse`
(it may raise). When `self.all` is `None`, the attribute access
`self.all.view_ddl` inside the `try` raises `AttributeError`; the
`except` handler then evaluates `self.all.view_ddl` again inside its log
message, so `AttributeError` propagates out of the handler. When the
parser raises, the handler logs and returns the empty list. -/
def MetadataTable.dependencies
    (parse : String → Except PyError (List String)) (t : MetadataTable) :
    Except PyError (List Dependency) :=
  match t.all with
  | none => .error .attributeError
  | some a =>
    match a.view_ddl with
    | none => .ok []
    | some ddl =>
      if ddl = "" then .ok []
      else
        match parse (stripParens ddl) with
        | .error _ => .ok []
        | .ok tables =>
          .ok (tables.foldl
            (fun acc table =>
              match depOfTable table with
              | some d => acc ++ [d]
              | none => acc)
            [])

/-- One auxiliary-cursor block of the alignment loops
(e.g. lines 132-141 of the source): when the cursor is within bounds,
decode the row at the cursor; if its identity-key fields match the
current merged object, attach it and advance the cursor by one,
otherwise leave the slot empty and the cursor unchanged. -/
def stepAux {α : Type} (p : α → Bool) (aux : List (PyRow α)) (i : Nat) :
    Except PyError (Option α × Nat) :=
  match aux[i]? with
  | none => .ok (none, i)
  | some row =>
    match row.decode with
    | .error e => .error e
    | .ok r => if p r then .ok (some r, i + 1) else .ok (none, i)

/-- The comparison at lines 136-139: the redshift schema row against the
merged object's canonical identity key. -/
def schemasMatchRedshift (dbn sn : String) (r : MetadataSchemaRedshift) : Bool :=
  r.database_name == dbn && r.schema_name == sn

/-- The comparison at lines 147-150: the external schema row against the
merged object's canonical identity key. -/
def schemasMatchExternal (dbn sn : String) (r : MetadataSchemaExternal) : Bool :=
  r.databasename == dbn && r.schemaname == sn

/-- The loop of `MetadataSchemas.__init__` (lines 121-154), with the two
auxiliary cursors `redshift_index` and `external_index` as arguments. -/
def schemasBuild :
    List (PyRow MetadataSchemaBase) → List (PyRow MetadataSchemaRedshift) →
    List (PyRow MetadataSchemaExternal) → Nat → Nat →
    Except PyError (List MetadataSchema)
  | [], _, _, _, _ => .ok []
  | s :: rest, red, ext, ri, ei =>
    match s.decode with
    | .error e => .error e
    | .ok b =>
      match stepAux (schemasMatchRedshift b.database_name b.schema_name) red ri with
      | .error e => .error e
      | .ok (ro, ri2) =>
        match stepAux (schemasMatchExternal b.database_name b.schema_name) ext ei with
        | .error e => .error e
        | .ok (eo, ei2) =>
          match schemasBuild rest red ext ri2 ei2 with
          | .error e => .error e
          | .ok ms =>
            .ok ({ database_name := b.database_name, schema_name := b.schema_name,
                   base := b, redshift := ro, external := eo } :: ms)

/-- `MetadataSchemas.__init__`: both cursors start at zero; the result
is the `items` list. -/
def metadataSchemasItems
    (schemas_base : List (PyRow MetadataSchemaBase))
    (schemas_redshift : List (PyRow MetadataSchemaRedshift))
    (schemas_external : List (PyRow MetadataSchemaExternal)) :
    Except PyError (List MetadataSchema) :=
  schemasBuild schemas_base schemas_redshift schemas_external 0 0

/-- The comparison at lines 184-188: the `all` table row against the
merged object's canonical identity key. -/
def tablesMatchAll (dbn sn tn : String) (r : MetadataTableAll) : Bool :=
  r.database_name == dbn && r.schema_name == sn && r.table_name == tn

/-- The comparison at lines 196-200. -/
def tablesMatchRedshift (dbn sn tn : String) (r : MetadataTableRedshift) : Bool :=
  r.database_name == dbn && r.schema_name == sn && r.table_name == tn

/-- The comparison at lines 208-212. -/
def tablesMatchExternal (dbn sn tn : String) (r : MetadataTableExternal) : Bool :=
  r.databasename == dbn && r.schemaname == sn && r.tablename == tn

/-- The comparison at lines 218-222. -/
def tablesMatchInfo (dbn sn tn : String) (r : MetadataTableInfo) : Bool :=
  r.database == dbn && r.schema == sn && r.table == tn

/-- The loop of `MetadataTables.__init__` (lines 168-226), with the four
auxiliary cursors as arguments. -/
def tablesBuild :
    List (PyRow MetadataTableBase) → List (PyRow MetadataTableAll) →
    List (PyRow MetadataTableRedshift) → List (PyRow MetadataTableExternal) →
    List (PyRow MetadataTableInfo) → Nat → Nat → Nat → Nat →
    Except PyError (List MetadataTable)
  | [], _, _, _, _, _, _, _, _ => .ok []
  | t :: rest, la, lr, le, li, ai, ri, ei, ii =>
    match t.decode with
    | .error e => .error e
    | .ok b =>
      match stepAux (tablesMatchAll b.table_catalog b.table_schema b.table_name) la ai with
      | .error e => .error e
      | .ok (ao, ai2) =>
        match stepAux (tablesMatchRedshift b.table_catalog b.table_schema b.table_name) lr ri with
        | .error e => .error e
        | .ok (ro, ri2) =>
          match stepAux (tablesMatchExternal b.table_catalog b.table_schema b.table_name) le ei with
          | .error e => .error e
          | .ok (eo, ei2) =>
            match stepAux (tablesMatchInfo b.table_catalog b.table_schema b.table_name) li ii with
            | .error e => .error e
            | .ok (io, ii2) =>
              match tablesBuild rest la lr le li ai2 ri2 ei2 ii2 with
              | .error e => .error e
              | .ok ms =>
                .ok ({ database_name := b.table_catalog, schema_name := b.table_schema,
                       table_name := b.table_name, base := b, all := ao,
                       redshift := ro, external := eo, info := io } :: ms)

/-- `MetadataTables.__init__`: all four cursors start at zero; the
result is the `items` list. -/
def metadataTablesItems
    (tables_base : List (PyRow MetadataTableBase))
    (tables_all : List (PyRow MetadataTableAll))
    (tables_redshift : List (PyRow MetadataTableRedshift))
    (tables_external : List (PyRow MetadataTableExternal))
    (tables_info : List (PyRow MetadataTableInfo)) :
    Except PyError (List MetadataTable) :=
  tablesBuild tables_base tables_all tables_redshift tables_external tables_info 0 0 0 0

/-- The comparison at lines 256-261: the redshift column row against the
merged object's canonical identity key (the column name is not
compared, only the ordinal position). -/
def columnsMatchRedshift (dbn sn tn : String) (op : Int)
    (r : MetadataColumnRedshift) : Bool :=
  r.database_name == dbn && r.schema_name == sn &&
    r.table_name == tn && r.ordinal_position == op

/-- The comparison at lines 269-273. -/
def columnsMatchExternal (dbn sn tn : String) (op : Int)
    (r : MetadataColumnExternal) : Bool :=
  r.databasename == dbn && r.schemaname == sn &&
    r.tablename == tn && r.columnnum == op

/-- The loop of `MetadataColumns.__init__` (lines 238-278), with the two
auxiliary cursors as arguments. -/
def columnsBuild :
    List (PyRow MetadataColumnBase) → List (PyRow MetadataColumnRedshift) →
    List (PyRow MetadataColumnExternal) → Nat → Nat →
    Except PyError (List MetadataColumn)
  | [], _, _, _, _ => .ok []
  | c :: rest, red, ext, ri, ei =>
    match c.decode with
    | .error e => .error e
    | .ok b =>
      match stepAux (columnsMatchRedshift b.database_name b.schema_name b.table_name
          b.ordinal_position) red ri with
      | .error e => .error e
      | .ok (ro, ri2) =>
        match stepAux (columnsMatchExternal b.database_name b.schema_name b.table_name
            b.ordinal_position) ext ei with
        | .error e => .error e
        | .ok (eo, ei2) =>
          match columnsBuild rest red ext ri2 ei2 with
          | .error e => .error e
          | .ok ms =>
            .ok ({ database_name := b.database_name, schema_name := b.schema_name,
                   table_name := b.table_name, column_name := b.column_name,
                   ordinal_position := b.ordinal_position,
                   base := b, redshift := ro, external := eo } :: ms)

/-- `MetadataColumns.__init__`: both cursors start at zero; the result
is the `items` list. -/
def metadataColumnsItems
    (columns : List (PyRow MetadataColumnBase))
    (columns_redshift : List (PyRow MetadataColumnRedshift))
    (columns_external : List (PyRow MetadataColumnExternal)) :
    Except PyError (List MetadataColumn) :=
  columnsBuild columns columns_redshift columns_external 0 0

/-- `MetadataExtension` (from `odd_models`): a schema identifier plus
the flattened, null-pruned field mapping. -/
structure MetadataExtension where
  schema_url : String
  metadata : List (String × String)
deriving DecidableEq

/-- The loop `for key in excluded_keys: metadata.pop(key)` at lines
290-291: `dict.pop` with no default raises `KeyError` when the key is
absent. Field values are abstracted as optional strings (`none` is
Python `None`). -/
def popKeys :
    List (String × Option String) → List String →
    Except PyError (List (String × Option String))
  | metadata, [] => .ok metadata
  | metadata, k :: ks =>
    if metadata.any (fun p => p.1 == k) then
      popKeys (metadata.filter (fun p => p.1 != k)) ks
    else .error .keyError

/-- `_append_metadata_extension` (lines 281-298): a `None` dataclass is
falsy, so nothing is appended; otherwise the fields are flattened
(`asdict` is modelled by taking the slot as its field list), the
excluded keys are popped, the keys with `None` values are dropped, and
one extension is appended to the output list. -/
def appendMetadataExtension
    (metadata_list : List MetadataExtension) (schema_url : String)
    (metadata_dataclass : Option (List (String × Option String)))
    (excluded_keys : Option (List String)) :
    Except PyError (List MetadataExtension) :=
  match metadata_dataclass with
  | none => .ok metadata_list
  | some fields0 =>
    match
      (match excluded_keys with
       | none => Except.ok fields0
       | some ks => popKeys fields0 ks) with
    | .error e => .error e
    | .ok metadata =>
      .ok (metadata_list ++
        [{ schema_url := schema_url,
           metadata := metadata.filterMap (fun p => p.2.map (fun v => (p.1, v))) }])

/-- Proof-layer view of one auxiliary block over already-decoded rows:
attach-and-consume the head when it matches, else leave the list
untouched. -/
def alignOne {α : Type} (p : α → Bool) : List α → Option α × List α
  | [] => (none, [])
  | a :: rest => if p a then (some a, rest) else (none, a :: rest)

/-- Proof-layer view of `MetadataSchemas.__init__` over decoded records,
with the auxiliary cursors represented by list suffixes. -/
def schemasPure :
    List MetadataSchemaBase → List MetadataSchemaRedshift →
    List MetadataSchemaExternal → List MetadataSchema
  | [], _, _ => []
  | b :: rest, red, ext =>
    let s1 := alignOne (schemasMatchRedshift b.database_name b.schema_name) red
    let s2 := alignOne (schemasMatchExternal b.database_name b.schema_name) ext
    { database_name := b.database_name, schema_name := b.schema_name,
      base := b, redshift := s1.1, external := s2.1 } :: schemasPure rest s1.2 s2.2

/-- Proof-layer view of `MetadataTables.__init__` over decoded records. -/
def tablesPure :
    List MetadataTableBase → List MetadataTableAll → List MetadataTableRedshift →
    List MetadataTableExternal → List MetadataTableInfo → List MetadataTable
  | [], _, _, _, _ => []
  | b :: rest, la, lr, le, li =>
    let sa := alignOne (tablesMatchAll b.table_catalog b.table_schema b.table_name) la
    let sr := alignOne (tablesMatchRedshift b.table_catalog b.table_schema b.table_name) lr
    let se := alignOne (tablesMatchExternal b.table_catalog b.table_schema b.table_name) le
    let si := alignOne (tablesMatchInfo b.table_catalog b.table_schema b.table_name) li
    { database_name := b.table_catalog, schema_name := b.table_schema,
      table_name := b.table_name, base := b, all := sa.1,
      redshift := sr.1, external := se.1, info := si.1 } ::
      tablesPure rest sa.2 sr.2 se.2 si.2

/-- Proof-layer view of `MetadataColumns.__init__` over decoded records. -/
def columnsPure :
    List MetadataColumnBase → List MetadataColumnRedshift →
    List MetadataColumnExternal → List MetadataColumn
  | [], _, _ => []
  | b :: rest, red, ext =>
    let s1 := alignOne (columnsMatchRedshift b.database_name b.schema_name
      b.table_name b.ordinal_position) red
    let s2 := alignOne (columnsMatchExternal b.database_name b.schema_name
      b.table_name b.ordinal_position) ext
    { database_name := b.database_name, schema_name := b.schema_name,
      table_name := b.table_name, column_name := b.column_name,
      ordinal_position := b.ordinal_position,
      base := b, redshift := s1.1, external := s2.1 } :: columnsPure rest s1.2 s2.2

/-- The identity key of a base table record, canonicalized. -/
def tKeyBase (b : MetadataTableBase) : String × String × String :=
  (b.table_catalog, b.table_schema, b.table_name)

/-- The identity key of an `all` table record. -/
def tKeyAll (r : MetadataTableAll) : String × String × String :=
  (r.database_name, r.schema_name, r.table_name)

/-- The identity key of a redshift table record. -/
def tKeyRedshift (r : MetadataTableRedshift) : String × String × String :=
  (r.database_name, r.schema_name, r.table_name)

/-- The identity key of an external table record. -/
def tKeyExternal (r : MetadataTableExternal) : String × String × String :=
  (r.databasename, r.schemaname, r.tablename)

/-- The identity key of an extended-info table record. -/
def tKeyInfo (r : MetadataTableInfo) : String × String × String :=
  (r.database, r.schema, r.table)

/-- A single-slot view of the lockstep scan: the sequence of slot values
one auxiliary list contributes along the base-key sequence. -/
def scanAux {κ α : Type} [DecidableEq κ] (keyA : α → κ) :
    List κ → List α → List (Option α)
  | [], _ => []
  | _ :: ks, [] => none :: scanAux keyA ks []
  | k :: ks, a :: rest =>
    if keyA a = k then some a :: scanAux keyA ks rest
    else none :: scanAux keyA ks (a :: rest)

lemma stepAux_map_ok {α : Type} (p : α → Bool) (aux : List α) (i : Nat) :
    ∃ j, stepAux p (aux.map PyRow.ok) i = .ok ((alignOne p (aux.drop i)).1, j) ∧
      aux.drop j = (alignOne p (aux.drop i)).2 := by
  rcases Nat.lt_or_ge i aux.length with hi | hge
  · cases hp : p aux[i] with
    | true =>
      refine ⟨i + 1, ?_, ?_⟩ <;>
        · rw [List.drop_eq_getElem_cons hi]
          simp [stepAux, List.getElem?_map, List.getElem?_eq_getElem hi, PyRow.decode,
            alignOne, hp]
    | false =>
      refine ⟨i, ?_, ?_⟩
      · rw [List.drop_eq_getElem_cons hi]
        simp [stepAux, List.getElem?_map, List.getElem?_eq_getElem hi, PyRow.decode,
          alignOne, hp]
      · conv_rhs => rw [List.drop_eq_getElem_cons hi]
        rw [List.drop_eq_getElem_cons hi]
        simp [alignOne, hp]
  · have hdrop : aux.drop i = [] := List.drop_eq_nil_of_le hge
    refine ⟨i, ?_, ?_⟩
    · rw [hdrop]
      simp [stepAux, List.getElem?_map, List.getElem?_eq_none hge, alignOne]
    · rw [hdrop]
      simp [alignOne]

lemma schemasBuild_map_ok (base : List MetadataSchemaBase)
    (red : List MetadataSchemaRedshift) (ext : List MetadataSchemaExternal) :
    ∀ ri ei, schemasBuild (base.map PyRow.ok) (red.map PyRow.ok) (ext.map PyRow.ok) ri ei
      = .ok (schemasPure base (red.drop ri) (ext.drop ei)) := by
  induction base with
  | nil => intro ri ei; simp [schemasBuild, schemasPure]
  | cons b rest ih =>
    intro ri ei
    obtain ⟨ri2, hr, hr2⟩ :=
      stepAux_map_ok (schemasMatchRedshift b.database_name b.schema_name) red ri
    obtain ⟨ei2, he, he2⟩ :=
      stepAux_map_ok (schemasMatchExternal b.database_name b.schema_name) ext ei
    simp only [List.map_cons, schemasBuild, PyRow.decode, hr, he, ih ri2 ei2, hr2, he2,
      schemasPure]

lemma tablesBuild_map_ok (base : List MetadataTableBase)
    (la : List MetadataTableAll) (lr : List MetadataTableRedshift)
    (le : List MetadataTableExternal) (li : List MetadataTableInfo) :
    ∀ ai ri ei ii,
      tablesBuild (base.map PyRow.ok) (la.map PyRow.ok) (lr.map PyRow.ok)
          (le.map PyRow.ok) (li.map PyRow.ok) ai ri ei ii
        = .ok (tablesPure base (la.drop ai) (lr.drop ri) (le.drop ei) (li.drop ii)) := by
  induction base with
  | nil => intro ai ri ei ii; simp [tablesBuild, tablesPure]
  | cons b rest ih =>
    intro ai ri ei ii
    obtain ⟨ai2, ha, ha2⟩ :=
      stepAux_map_ok (tablesMatchAll b.table_catalog b.table_schema b.table_name) la ai
    obtain ⟨ri2, hr, hr2⟩ :=
      stepAux_map_ok (tablesMatchRedshift b.table_catalog b.table_schema b.table_name) lr ri
    obtain ⟨ei2, he, he2⟩ :=
      stepAux_map_ok (tablesMatchExternal b.table_catalog b.table_schema b.table_name) le ei
    obtain ⟨ii2, hi, hi2⟩ :=
      stepAux_map_ok (tablesMatchInfo b.table_catalog b.table_schema b.table_name) li ii
    simp only [List.map_cons, tablesBuild, PyRow.decode, ha, hr, he, hi,
      ih ai2 ri2 ei2 ii2, ha2, hr2, he2, hi2, tablesPure]

lemma columnsBuild_map_ok (base : List MetadataColumnBase)
    (red : List MetadataColumnRedshift) (ext : List MetadataColumnExternal) :
    ∀ ri ei, columnsBuild (base.map PyRow.ok) (red.map PyRow.ok) (ext.map PyRow.ok) ri ei
      = .ok (columnsPure base (red.drop ri) (ext.drop ei)) := by
  induction base with
  | nil => intro ri ei; simp [columnsBuild, columnsPure]
  | cons b rest ih =>
    intro ri ei
    obtain ⟨ri2, hr, hr2⟩ :=
      stepAux_map_ok (columnsMatchRedshift b.database_name b.schema_name b.table_name
        b.ordinal_position) red ri
    obtain ⟨ei2, he, he2⟩ :=
      stepAux_map_ok (columnsMatchExternal b.database_name b.schema_name b.table_name
        b.ordinal_position) ext ei
    simp only [List.map_cons, columnsBuild, PyRow.decode, hr, he, ih ri2 ei2, hr2, he2,
      columnsPure]

lemma metadataSchemasItems_map_ok (sb : List MetadataSchemaBase)
    (sr : List MetadataSchemaRedshift) (se : List MetadataSchemaExternal) :
    metadataSchemasItems (sb.map PyRow.ok) (sr.map PyRow.ok) (se.map PyRow.ok)
      = .ok (schemasPure sb sr se) := by
  simpa using schemasBuild_map_ok sb sr se 0 0

lemma metadataTablesItems_map_ok (tb : List MetadataTableBase)
    (ta : List MetadataTableAll) (tr : List MetadataTableRedshift)
    (te : List MetadataTableExternal) (ti : List MetadataTableInfo) :
    metadataTablesItems (tb.map PyRow.ok) (ta.map PyRow.ok) (tr.map PyRow.ok)
        (te.map PyRow.ok) (ti.map PyRow.ok)
      = .ok (tablesPure tb ta tr te ti) := by
  simpa using tablesBuild_map_ok tb ta tr te ti 0 0 0 0

lemma metadataColumnsItems_map_ok (cb : List MetadataColumnBase)
    (cr : List MetadataColumnRedshift) (ce : List MetadataColumnExternal) :
    metadataColumnsItems (cb.map PyRow.ok) (cr.map PyRow.ok) (ce.map PyRow.ok)
      = .ok (columnsPure cb cr ce) := by
  simpa using columnsBuild_map_ok cb cr ce 0 0

lemma schemasPure_length (sb : List MetadataSchemaBase) :
    ∀ (sr : List MetadataSchemaRedshift) (se : List MetadataSchemaExternal),
      (schemasPure sb sr se).length = sb.length := by
  induction sb with
  | nil => intro sr se; simp [schemasPure]
  | cons b rest ih => intro sr se; simp [schemasPure, ih]

lemma tablesPure_length (tb : List MetadataTableBase) :
    ∀ (ta : List MetadataTableAll) (tr : List MetadataTableRedshift)
      (te : List MetadataTableExternal) (ti : List MetadataTableInfo),
      (tablesPure tb ta tr te ti).length = tb.length := by
  induction tb with
  | nil => intro ta tr te ti; simp [tablesPure]
  | cons b rest ih => intro ta tr te ti; simp [tablesPure, ih]

lemma columnsPure_length (cb : List MetadataColumnBase) :
    ∀ (cr : List MetadataColumnRedshift) (ce : List MetadataColumnExternal),
      (columnsPure cb cr ce).length = cb.length := by
  induction cb with
  | nil => intro cr ce; simp [columnsPure]
  | cons b rest ih => intro cr ce; simp [columnsPure, ih]

lemma schemasPure_map_base (sb : List MetadataSchemaBase) :
    ∀ (sr : List MetadataSchemaRedshift) (se : List MetadataSchemaExternal),
      (schemasPure sb sr se).map (fun m => m.base) = sb := by
  induction sb with
  | nil => intro sr se; simp [schemasPure]
  | cons b rest ih => intro sr se; simp [schemasPure, ih]

lemma tablesPure_map_base (tb : List MetadataTableBase) :
    ∀ (ta : List MetadataTableAll) (tr : List MetadataTableRedshift)
      (te : List MetadataTableExternal) (ti : List MetadataTableInfo),
      (tablesPure tb ta tr te ti).map (fun m => m.base) = tb := by
  induction tb with
  | nil => intro ta tr te ti; simp [tablesPure]
  | cons b rest ih => intro ta tr te ti; simp [tablesPure, ih]

lemma columnsPure_map_base (cb : List MetadataColumnBase) :
    ∀ (cr : List MetadataColumnRedshift) (ce : List MetadataColumnExternal),
      (columnsPure cb cr ce).map (fun m => m.base) = cb := by
  induction cb with
  | nil => intro cr ce; simp [columnsPure]
  | cons b rest ih => intro cr ce; simp [columnsPure, ih]

lemma schemasPure_map_key (sb : List MetadataSchemaBase) :
    ∀ (sr : List MetadataSchemaRedshift) (se : List MetadataSchemaExternal),
      (schemasPure sb sr se).map (fun m => (m.database_name, m.schema_name))
        = sb.map (fun b => (b.database_name, b.schema_name)) := by
  induction sb with
  | nil => intro sr se; simp [schemasPure]
  | cons b rest ih => intro sr se; simp [schemasPure, ih]

lemma tablesPure_map_key (tb : List MetadataTableBase) :
    ∀ (ta : List MetadataTableAll) (tr : List MetadataTableRedshift)
      (te : List MetadataTableExternal) (ti : List MetadataTableInfo),
      (tablesPure tb ta tr te ti).map
          (fun m => (m.database_name, m.schema_name, m.table_name))
        = tb.map (fun b => (b.table_catalog, b.table_schema, b.table_name)) := by
  induction tb with
  | nil => intro ta tr te ti; simp [tablesPure]
  | cons b rest ih => intro ta tr te ti; simp [tablesPure, ih]

lemma columnsPure_map_key (cb : List MetadataColumnBase) :
    ∀ (cr : List MetadataColumnRedshift) (ce : List MetadataColumnExternal),
      (columnsPure cb cr ce).map
          (fun m => (m.database_name, m.schema_name, m.table_name,
            m.column_name, m.ordinal_position))
        = cb.map (fun b => (b.database_name, b.schema_name, b.table_name,
            b.column_name, b.ordinal_position)) := by
  induction cb with
  | nil => intro cr ce; simp [columnsPure]
  | cons b rest ih => intro cr ce; simp [columnsPure, ih]

lemma tablesMatchAll_key (d s t : String) (r : MetadataTableAll) :
    tablesMatchAll d s t r = decide (tKeyAll r = (d, s, t)) := by
  rw [Bool.eq_iff_iff]
  simp [tablesMatchAll, tKeyAll, Prod.ext_iff, and_assoc]

lemma tablesMatchRedshift_key (d s t : String) (r : MetadataTableRedshift) :
    tablesMatchRedshift d s t r = decide (tKeyRedshift r = (d, s, t)) := by
  rw [Bool.eq_iff_iff]
  simp [tablesMatchRedshift, tKeyRedshift, Prod.ext_iff, and_assoc]

lemma tablesMatchExternal_key (d s t : String) (r : MetadataTableExternal) :
    tablesMatchExternal d s t r = decide (tKeyExternal r = (d, s, t)) := by
  rw [Bool.eq_iff_iff]
  simp [tablesMatchExternal, tKeyExternal, Prod.ext_iff, and_assoc]

lemma tablesMatchInfo_key (d s t : String) (r : MetadataTableInfo) :
    tablesMatchInfo d s t r = decide (tKeyInfo r = (d, s, t)) := by
  rw [Bool.eq_iff_iff]
  simp [tablesMatchInfo, tKeyInfo, Prod.ext_iff, and_assoc]

lemma scanAux_cons {κ α : Type} [DecidableEq κ] (keyA : α → κ) (k : κ) (ks : List κ)
    (aux : List α) (p : α → Bool) (hp : ∀ a, p a = decide (keyA a = k)) :
    scanAux keyA (k :: ks) aux
      = (alignOne p aux).1 :: scanAux keyA ks (alignOne p aux).2 := by
  cases aux with
  | nil => simp [scanAux, alignOne]
  | cons a rest =>
    by_cases h : keyA a = k <;> simp [scanAux, alignOne, hp, h]

lemma scanAux_isSome {κ α : Type} [DecidableEq κ] (keyA : α → κ) (keys : List κ) :
    ∀ aux : List α, keys.Nodup → List.Sublist (aux.map keyA) keys →
      (scanAux keyA keys aux).map Option.isSome
        = keys.map (fun k => decide (k ∈ aux.map keyA)) := by
  induction keys with
  | nil => intro aux _ _; simp [scanAux]
  | cons k ks ih =>
    intro aux hnd hsub
    have hknotin : k ∉ ks := (List.nodup_cons.mp hnd).1
    have hndks : ks.Nodup := (List.nodup_cons.mp hnd).2
    cases aux with
    | nil =>
      simp only [scanAux, List.map_cons, List.map_nil]
      rw [ih [] hndks (List.nil_sublist ks)]
      simp
    | cons a rest =>
      by_cases hk : keyA a = k
      · have hsub2 : List.Sublist (rest.map keyA) ks := by
          rw [List.map_cons, hk] at hsub
          cases hsub with
          | cons _ h => exact List.sublist_of_cons_sublist h
          | cons₂ _ h => exact h
        have htail : ks.map (fun x => decide (x ∈ rest.map keyA))
            = ks.map (fun x => decide (x ∈ (a :: rest).map keyA)) := by
          apply List.map_congr_left
          intro x hx
          have hxa : x ≠ keyA a := by
            rw [hk]
            exact fun he => hknotin (he ▸ hx)
          rw [decide_eq_decide]
          simp [List.mem_cons, hxa]
        have hhead : decide (k ∈ (a :: rest).map keyA) = true := by
          simp [List.mem_cons, hk.symm]
        simp only [scanAux, if_pos hk]
        rw [List.map_cons, List.map_cons, ih rest hndks hsub2, htail, hhead]
        rfl
      · have hsub2 : List.Sublist ((a :: rest).map keyA) ks := by
          rw [List.map_cons] at hsub ⊢
          cases hsub with
          | cons _ h => exact h
          | cons₂ _ h => exact absurd rfl hk
        have hhead : decide (k ∈ (a :: rest).map keyA) = false := by
          have : k ∉ (a :: rest).map keyA := fun hmem => hknotin (hsub2.subset hmem)
          simpa using this
        simp only [scanAux, if_neg hk]
        rw [List.map_cons, List.map_cons, ih (a :: rest) hndks hsub2, hhead]
        rfl

lemma tablesPure_map_all (tb : List MetadataTableBase) :
    ∀ (ta : List MetadataTableAll) (tr : List MetadataTableRedshift)
      (te : List MetadataTableExternal) (ti : List MetadataTableInfo),
      (tablesPure tb ta tr te ti).map (fun m => m.all)
        = scanAux tKeyAll (tb.map tKeyBase) ta := by
  induction tb with
  | nil => intro ta tr te ti; simp [tablesPure, scanAux]
  | cons b rest ih =>
    intro ta tr te ti
    have hp : ∀ a : MetadataTableAll,
        tablesMatchAll b.table_catalog b.table_schema b.table_name a
          = decide (tKeyAll a = tKeyBase b) := by
      intro a; rw [tablesMatchAll_key]; rfl
    rw [List.map_cons, scanAux_cons tKeyAll (tKeyBase b) (rest.map tKeyBase) ta _ hp]
    simp [tablesPure, ih]

lemma tablesPure_map_redshift (tb : List MetadataTableBase) :
    ∀ (ta : List MetadataTableAll) (tr : List MetadataTableRedshift)
      (te : List MetadataTableExternal) (ti : List MetadataTableInfo),
      (tablesPure tb ta tr te ti).map (fun m => m.redshift)
        = scanAux tKeyRedshift (tb.map tKeyBase) tr := by
  induction tb with
  | nil => intro ta tr te ti; simp [tablesPure, scanAux]
  | cons b rest ih =>
    intro ta tr te ti
    have hp : ∀ a : MetadataTableRedshift,
        tablesMatchRedshift b.table_catalog b.table_schema b.table_name a
          = decide (tKeyRedshift a = tKeyBase b) := by
      intro a; rw [tablesMatchRedshift_key]; rfl
    rw [List.map_cons, scanAux_cons tKeyRedshift (tKeyBase b) (rest.map tKeyBase) tr _ hp]
    simp [tablesPure, ih]

lemma tablesPure_map_external (tb : List MetadataTableBase) :
    ∀ (ta : List MetadataTableAll) (tr : List MetadataTableRedshift)
      (te : List MetadataTableExternal) (ti : List MetadataTableInfo),
      (tablesPure tb ta tr te ti).map (fun m => m.external)
        = scanAux tKeyExternal (tb.map tKeyBase) te := by
  induction tb with
  | nil => intro ta tr te ti; simp [tablesPure, scanAux]
  | cons b rest ih =>
    intro ta tr te ti
    have hp : ∀ a : MetadataTableExternal,
        tablesMatchExternal b.table_catalog b.table_schema b.table_name a
          = decide (tKeyExternal a = tKeyBase b) := by
      intro a; rw [tablesMatchExternal_key]; rfl
    rw [List.map_cons, scanAux_cons tKeyExternal (tKeyBase b) (rest.map tKeyBase) te _ hp]
    simp [tablesPure, ih]

lemma tablesPure_map_info (tb : List MetadataTableBase) :
    ∀ (ta : List MetadataTableAll) (tr : List MetadataTableRedshift)
      (te : List MetadataTableExternal) (ti : List MetadataTableInfo),
      (tablesPure tb ta tr te ti).map (fun m => m.info)
        = scanAux tKeyInfo (tb.map tKeyBase) ti := by
  induction tb with
  | nil => intro ta tr te ti; simp [tablesPure, scanAux]
  | cons b rest ih =>
    intro ta tr te ti
    have hp : ∀ a : MetadataTableInfo,
        tablesMatchInfo b.table_catalog b.table_schema b.table_name a
          = decide (tKeyInfo a = tKeyBase b) := by
      intro a; rw [tablesMatchInfo_key]; rfl
    rw [List.map_cons, scanAux_cons tKeyInfo (tKeyBase b) (rest.map tKeyBase) ti _ hp]
    simp [tablesPure, ih]

lemma depFold_append (tables : List String) :
    ∀ acc : List Dependency,
      tables.foldl
          (fun acc table =>
            match depOfTable table with
            | some d => acc ++ [d]
            | none => acc) acc
        = acc ++ tables.filterMap depOfTable := by
  induction tables with
  | nil => intro acc; simp
  | cons t ts ih =>
    intro acc
    cases h : depOfTable t with
    | none =>
      simp only [List.foldl_cons, h]
      rw [ih acc]
      simp [List.filterMap_cons, h]
    | some d =>
      simp only [List.foldl_cons, h]
      rw [ih (acc ++ [d])]
      simp [List.filterMap_cons, h]

lemma depOfTable_two (table s n : String) (h : table.splitOn "." = [s, n]) :
    depOfTable table = some { name := n, schema := s } := by
  simp [depOfTable, h]

lemma depOfTable_one (table n : String) (h : table.splitOn "." = [n]) :
    depOfTable table = some { name := n, schema := "public" } := by
  simp [depOfTable, h]

lemma depOfTable_many (table : String) (h : 2 < (table.splitOn ".").length) :
    depOfTable table = none := by
  simp only [depOfTable]
  rw [if_pos h]

lemma dependencies_parsed (parse : String → Except PyError (List String))
    (t : MetadataTable) (a : MetadataTableAll) (ddl : String) (tables : List String)
    (h1 : t.all = some a) (h2 : a.view_ddl = some ddl) (h3 : ddl ≠ "")
    (h4 : parse (stripParens ddl) = .ok tables) :
    t.dependencies parse = .ok (tables.filterMap depOfTable) := by
  simp only [MetadataTable.dependencies, h1, h2, if_neg h3, h4]
  rw [depFold_append tables []]
  simp

lemma dependencies_parse_error (parse : String → Except PyError (List String))
    (t : MetadataTable) (a : MetadataTableAll) (ddl : String) (e : PyError)
    (h1 : t.all = some a) (h2 : a.view_ddl = some ddl) (h3 : ddl ≠ "")
    (h4 : parse (stripParens ddl) = .error e) :
    t.dependencies parse = .ok [] := by
  simp only [MetadataTable.dependencies, h1, h2, if_neg h3, h4]

lemma popKeys_eq_filter (ks : List String) :
    ∀ md : List (String × Option String), ks.Nodup →
      (∀ k ∈ ks, k ∈ md.map Prod.fst) →
      popKeys md ks = .ok (md.filter (fun p => decide (p.1 ∉ ks))) := by
  induction ks with
  | nil =>
    intro md _ _
    have hfilter : md.filter (fun p => decide (p.1 ∉ ([] : List String))) = md :=
      List.filter_eq_self.mpr (by intro a _; simp)
    rw [popKeys, hfilter]
  | cons k ks ih =>
    intro md hnd hmem
    have hkmd : k ∈ md.map Prod.fst := hmem k (List.mem_cons_self k ks)
    have hany : md.any (fun p => p.1 == k) = true := by
      rw [List.any_eq_true]
      obtain ⟨p, hp, hpk⟩ := List.mem_map.mp hkmd
      exact ⟨p, hp, by simp [hpk]⟩
    have hmem2 : ∀ k2 ∈ ks, k2 ∈ (md.filter (fun p => p.1 != k)).map Prod.fst := by
      intro k2 hk2
      have hne : k2 ≠ k := fun he => (List.nodup_cons.mp hnd).1 (he ▸ hk2)
      obtain ⟨p, hp, hpk⟩ := List.mem_map.mp (hmem k2 (List.mem_cons_of_mem _ hk2))
      refine List.mem_map.mpr ⟨p, List.mem_filter.mpr ⟨hp, ?_⟩, hpk⟩
      simp [hpk, hne]
    simp only [popKeys, hany, if_true]
    rw [ih (md.filter (fun p => p.1 != k)) (List.nodup_cons.mp hnd).2 hmem2]
    rw [List.filter_filter]
    congr 1
    apply List.filter_congr
    intro p _
    by_cases hpk : p.1 = k
    · simp [hpk]
    · simp [hpk]

lemma popKeys_missing (ks : List String) :
    ∀ (md : List (String × Option String)) (k : String), k ∈ ks →
      k ∉ md.map Prod.fst → popKeys md ks = .error .keyError := by
  induction ks with
  | nil => intro md k hk _; exact absurd hk (List.not_mem_nil k)
  | cons k1 ks ih =>
    intro md k hk hnot
    cases hany : md.any (fun p => p.1 == k1) with
    | false => simp [popKeys, hany]
    | true =>
      simp only [popKeys, hany, if_true]
      have hkk1 : k ≠ k1 := by
        intro he
        subst he
        rw [List.any_eq_true] at hany
        obtain ⟨p, hp, hpk⟩ := hany
        exact hnot (List.mem_map.mpr ⟨p, hp, by simpa using hpk⟩)
      have hk2 : k ∈ ks := by
        rcases List.mem_cons.mp hk with he | h
        · exact absurd he hkk1
        · exact h
      apply ih _ k hk2
      intro hmem
      apply hnot
      obtain ⟨p, hp, hpk⟩ := List.mem_map.mp hmem
      exact List.mem_map.mpr ⟨p, (List.mem_filter.mp hp).1, hpk⟩

/-- C1: for every base list and every auxiliary list whose identity-key
sequence is a duplicate-free, compatibly-sorted exact subset of the base
key sequence (a sublist of the base key sequence), `MetadataTables`
populates the corresponding auxiliary slot of exactly those merged
objects whose identity key appears in that auxiliary list, and leaves it
`None` for every other base row. -/
theorem claim1_aligner_exact_subset_population
    (tb : List MetadataTableBase) (ta : List MetadataTableAll)
    (tr : List MetadataTableRedshift) (te : List MetadataTableExternal)
    (ti : List MetadataTableInfo)
    (hnd : (tb.map tKeyBase).Nodup)
    (hsa : List.Sublist (ta.map tKeyAll) (tb.map tKeyBase))
    (hsr : List.Sublist (tr.map tKeyRedshift) (tb.map tKeyBase))
    (hse : List.Sublist (te.map tKeyExternal) (tb.map tKeyBase))
    (hsi : List.Sublist (ti.map tKeyInfo) (tb.map tKeyBase)) :
    metadataTablesItems (tb.map PyRow.ok) (ta.map PyRow.ok) (tr.map PyRow.ok)
        (te.map PyRow.ok) (ti.map PyRow.ok)
      = .ok (tablesPure tb ta tr te ti)
    ∧ (tablesPure tb ta tr te ti).map (fun m => m.all.isSome)
      = tb.map (fun b => decide (tKeyBase b ∈ ta.map tKeyAll))
    ∧ (tablesPure tb ta tr te ti).map (fun m => m.redshift.isSome)
      = tb.map (fun b => decide (tKeyBase b ∈ tr.map tKeyRedshift))
    ∧ (tablesPure tb ta tr te ti).map (fun m => m.external.isSome)
      = tb.map (fun b => decide (tKeyBase b ∈ te.map tKeyExternal))
    ∧ (tablesPure tb ta tr te ti).map (fun m => m.info.isSome)
      = tb.map (fun b => decide (tKeyBase b ∈ ti.map tKeyInfo)) := by
  refine ⟨metadataTablesItems_map_ok tb ta tr te ti, ?_, ?_, ?_, ?_⟩
  · have h1 : (tablesPure tb ta tr te ti).map (fun m => m.all.isSome)
        = ((tablesPure tb ta tr te ti).map (fun m => m.all)).map Option.isSome := by
      rw [List.map_map]; rfl
    rw [h1, tablesPure_map_all tb ta tr te ti,
      scanAux_isSome tKeyAll (tb.map tKeyBase) ta hnd hsa, List.map_map]
    simp [Function.comp]
  · have h1 : (tablesPure tb ta tr te ti).map (fun m => m.redshift.isSome)
        = ((tablesPure tb ta tr te ti).map (fun m => m.redshift)).map Option.isSome := by
      rw [List.map_map]; rfl
    rw [h1, tablesPure_map_redshift tb ta tr te ti,
      scanAux_isSome tKeyRedshift (tb.map tKeyBase) tr hnd hsr, List.map_map]
    simp [Function.comp]
  · have h1 : (tablesPure tb ta tr te ti).map (fun m => m.external.isSome)
        = ((tablesPure tb ta tr te ti).map (fun m => m.external)).map Option.isSome := by
      rw [List.map_map]; rfl
    rw [h1, tablesPure_map_external tb ta tr te ti,
      scanAux_isSome tKeyExternal (tb.map tKeyBase) te hnd hse, List.map_map]
    simp [Function.comp]
  · have h1 : (tablesPure tb ta tr te ti).map (fun m => m.info.isSome)
        = ((tablesPure tb ta tr te ti).map (fun m => m.info)).map Option.isSome := by
      rw [List.map_map]; rfl
    rw [h1, tablesPure_map_info tb ta tr te ti,
      scanAux_isSome tKeyInfo (tb.map tKeyBase) ti hnd hsi, List.map_map]
    simp [Function.comp]

/-- C1 witness: a concrete two-table run in which the `all` list covers
only the second table, the redshift list covers both, the external list
is empty and the info list covers only the first table. -/
theorem claim1_witness :
    metadataTablesItems
        ([⟨"db", "s", "t1", []⟩, ⟨"db", "s", "t2", []⟩].map PyRow.ok)
        ([⟨"db", "s", "t2", some "v", []⟩].map PyRow.ok)
        ([⟨"db", "s", "t1", []⟩, ⟨"db", "s", "t2", []⟩].map PyRow.ok)
        (([] : List MetadataTableExternal).map PyRow.ok)
        ([⟨"db", "s", "t1", []⟩].map PyRow.ok)
      = .ok (tablesPure [⟨"db", "s", "t1", []⟩, ⟨"db", "s", "t2", []⟩]
          [⟨"db", "s", "t2", some "v", []⟩]
          [⟨"db", "s", "t1", []⟩, ⟨"db", "s", "t2", []⟩] []
          [⟨"db", "s", "t1", []⟩])
    ∧ (tablesPure [⟨"db", "s", "t1", []⟩, ⟨"db", "s", "t2", []⟩]
          [⟨"db", "s", "t2", some "v", []⟩]
          [⟨"db", "s", "t1", []⟩, ⟨"db", "s", "t2", []⟩] []
          [⟨"db", "s", "t1", []⟩]).map (fun m => m.all.isSome)
      = [⟨"db", "s", "t1", []⟩, ⟨"db", "s", "t2", []⟩].map
          (fun b => decide (tKeyBase b ∈ [⟨"db", "s", "t2", some "v", []⟩].map tKeyAll))
    ∧ (tablesPure [⟨"db", "s", "t1", []⟩, ⟨"db", "s", "t2", []⟩]
          [⟨"db", "s", "t2", some "v", []⟩]
          [⟨"db", "s", "t1", []⟩, ⟨"db", "s", "t2", []⟩] []
          [⟨"db", "s", "t1", []⟩]).map (fun m => m.redshift.isSome)
      = [⟨"db", "s", "t1", []⟩, ⟨"db", "s", "t2", []⟩].map
          (fun b => decide (tKeyBase b ∈
            [⟨"db", "s", "t1", []⟩, ⟨"db", "s", "t2", []⟩].map tKeyRedshift))
    ∧ (tablesPure [⟨"db", "s", "t1", []⟩, ⟨"db", "s", "t2", []⟩]
          [⟨"db", "s", "t2", some "v", []⟩]
          [⟨"db", "s", "t1", []⟩, ⟨"db", "s", "t2", []⟩] []
          [⟨"db", "s", "t1", []⟩]).map (fun m => m.external.isSome)
      = [⟨"db", "s", "t1", []⟩, ⟨"db", "s", "t2", []⟩].map
          (fun b => decide (tKeyBase b ∈
            ([] : List MetadataTableExternal).map tKeyExternal))
    ∧ (tablesPure [⟨"db", "s", "t1", []⟩, ⟨"db", "s", "t2", []⟩]
          [⟨"db", "s", "t2", some "v", []⟩]
          [⟨"db", "s", "t1", []⟩, ⟨"db", "s", "t2", []⟩] []
          [⟨"db", "s", "t1", []⟩]).map (fun m => m.info.isSome)
      = [⟨"db", "s", "t1", []⟩, ⟨"db", "s", "t2", []⟩].map
          (fun b => decide (tKeyBase b ∈ [⟨"db", "s", "t1", []⟩].map tKeyInfo)) :=
  claim1_aligner_exact_subset_population
    [⟨"db", "s", "t1", []⟩, ⟨"db", "s", "t2", []⟩]
    [⟨"db", "s", "t2", some "v", []⟩]
    [⟨"db", "s", "t1", []⟩, ⟨"db", "s", "t2", []⟩] []
    [⟨"db", "s", "t1", []⟩]
    (by decide) (by decide) (by decide) (by decide) (by decide)

/-- C2: for every base list of length N, each of the three aligner
instantiations produces exactly N merged objects, in base-list order,
the i-th merged object being built from the i-th base row (its `base`
slot is that row, so the map of `base` over the output is the input
base list itself). -/
theorem claim2_output_length_and_order :
    (∀ (sb : List MetadataSchemaBase) (sr : List MetadataSchemaRedshift)
        (se : List MetadataSchemaExternal),
      metadataSchemasItems (sb.map PyRow.ok) (sr.map PyRow.ok) (se.map PyRow.ok)
          = .ok (schemasPure sb sr se)
        ∧ (schemasPure sb sr se).length = sb.length
        ∧ (schemasPure sb sr se).map (fun m => m.base) = sb)
    ∧ (∀ (tb : List MetadataTableBase) (ta : List MetadataTableAll)
        (tr : List MetadataTableRedshift) (te : List MetadataTableExternal)
        (ti : List MetadataTableInfo),
      metadataTablesItems (tb.map PyRow.ok) (ta.map PyRow.ok) (tr.map PyRow.ok)
          (te.map PyRow.ok) (ti.map PyRow.ok)
          = .ok (tablesPure tb ta tr te ti)
        ∧ (tablesPure tb ta tr te ti).length = tb.length
        ∧ (tablesPure tb ta tr te ti).map (fun m => m.base) = tb)
    ∧ (∀ (cb : List MetadataColumnBase) (cr : List MetadataColumnRedshift)
        (ce : List MetadataColumnExternal),
      metadataColumnsItems (cb.map PyRow.ok) (cr.map PyRow.ok) (ce.map PyRow.ok)
          = .ok (columnsPure cb cr ce)
        ∧ (columnsPure cb cr ce).length = cb.length
        ∧ (columnsPure cb cr ce).map (fun m => m.base) = cb) :=
  ⟨fun sb sr se =>
    ⟨metadataSchemasItems_map_ok sb sr se, schemasPure_length sb sr se,
      schemasPure_map_base sb sr se⟩,
   fun tb ta tr te ti =>
    ⟨metadataTablesItems_map_ok tb ta tr te ti, tablesPure_length tb ta tr te ti,
      tablesPure_map_base tb ta tr te ti⟩,
   fun cb cr ce =>
    ⟨metadataColumnsItems_map_ok cb cr ce, columnsPure_length cb cr ce,
      columnsPure_map_base cb cr ce⟩⟩

/-- C3: one auxiliary-cursor step of the alignment loops never rewinds
and never skips: the new cursor is the old one or its successor, it is
the successor exactly when a row was attached, and an attached row is
the decoded row that stood at the old cursor position and matched. -/
theorem claim3_cursor_monotone {α : Type} (p : α → Bool) (aux : List (PyRow α))
    (i : Nat) (ro : Option α) (j : Nat)
    (h : stepAux p aux i = .ok (ro, j)) :
    i ≤ j ∧ j ≤ i + 1 ∧ (j = i + 1 ↔ ro.isSome = true)
    ∧ (∀ r, ro = some r → aux[i]? = some (PyRow.ok r) ∧ p r = true) := by
  unfold stepAux at h
  cases haux : aux[i]? with
  | none =>
    rw [haux] at h
    simp only [Except.ok.injEq, Prod.mk.injEq] at h
    obtain ⟨h1, h2⟩ := h
    subst h1
    subst h2
    exact ⟨Nat.le_refl i, Nat.le_succ i, by simp, by simp⟩
  | some row =>
    rw [haux] at h
    cases row with
    | malformed => simp [PyRow.decode] at h
    | ok r =>
      simp only [PyRow.decode] at h
      cases hp : p r with
      | false =>
        rw [hp] at h
        simp only [Bool.false_eq_true, if_false, Except.ok.injEq, Prod.mk.injEq] at h
        obtain ⟨h1, h2⟩ := h
        subst h1
        subst h2
        exact ⟨Nat.le_refl i, Nat.le_succ i, by simp, by simp⟩
      | true =>
        rw [hp] at h
        simp only [if_true, Except.ok.injEq, Prod.mk.injEq] at h
        obtain ⟨h1, h2⟩ := h
        subst h1
        subst h2
        refine ⟨Nat.le_succ i, Nat.le_refl (i + 1), by simp, ?_⟩
        intro r2 hr2
        rw [Option.some.inj hr2] at hp ⊢
        exact ⟨rfl, hp⟩

/-- C3 witness: a singleton auxiliary list whose row matches at cursor
zero; the cursor advances from 0 to 1. -/
theorem claim3_witness :
    (0 : Nat) ≤ 1 ∧ 1 ≤ 0 + 1 ∧ (1 = 0 + 1 ↔ (some true).isSome = true)
    ∧ (∀ r, (some true : Option Bool) = some r →
        ([PyRow.ok true] : List (PyRow Bool))[0]? = some (PyRow.ok r)
        ∧ (fun x => x) r = true) :=
  claim3_cursor_monotone (fun x => x) [PyRow.ok true] 0 (some true) 1 rfl

/-- C4: the claim that `dependencies` is total even when the `all` slot
is `None` is the intended behaviour, but the code slips: the `except`
handler itself dereferences `self.all.view_ddl`, so `AttributeError`
propagates. Evaluating the embedded code at the failing input shows the
raised exception. -/
theorem claim4_dependencies_none_raises :
    MetadataTable.dependencies (fun _ => .ok [])
        { database_name := "db", schema_name := "s", table_name := "t",
          base := ⟨"db", "s", "t", []⟩, all := none, redshift := none,
          external := none, info := none }
      = .error .attributeError := rfl

/-- C5: with the parser applied to the parenthesis-stripped view text,
`dependencies` returns exactly the identifiers mapped through the
dot-split rule: more than two components are skipped, two components
give schema and name, one component defaults the schema to `"public"`. -/
theorem claim5_dependency_identifier_split
    (parse : String → Except PyError (List String)) (t : MetadataTable)
    (a : MetadataTableAll) (ddl : String) (tables : List String)
    (h1 : t.all = some a) (h2 : a.view_ddl = some ddl) (h3 : ddl ≠ "")
    (h4 : parse (stripParens ddl) = .ok tables) :
    t.dependencies parse = .ok (tables.filterMap depOfTable)
    ∧ (∀ table s n, table.splitOn "." = [s, n] →
        depOfTable table = some { name := n, schema := s })
    ∧ (∀ table n, table.splitOn "." = [n] →
        depOfTable table = some { name := n, schema := "public" })
    ∧ (∀ table, 2 < (table.splitOn ".").length → depOfTable table = none) :=
  ⟨dependencies_parsed parse t a ddl tables h1 h2 h3 h4,
   depOfTable_two, depOfTable_one, depOfTable_many⟩

/-- C5 witness: a concrete view definition whose parsed identifiers
exercise all three split cases. -/
theorem claim5_witness :
    MetadataTable.dependencies (fun _ => .ok ["s1.foo", "bar", "a.b.c"])
        { database_name := "db", schema_name := "s", table_name := "v",
          base := ⟨"db", "s", "v", []⟩,
          all := some ⟨"db", "s", "v", some "SELECT * FROM s1.foo", []⟩,
          redshift := none, external := none, info := none }
      = .ok (["s1.foo", "bar", "a.b.c"].filterMap depOfTable)
    ∧ (∀ table s n, table.splitOn "." = [s, n] →
        depOfTable table = some { name := n, schema := s })
    ∧ (∀ table n, table.splitOn "." = [n] →
        depOfTable table = some { name := n, schema := "public" })
    ∧ (∀ table, 2 < (table.splitOn ".").length → depOfTable table = none) :=
  claim5_dependency_identifier_split
    (fun _ => .ok ["s1.foo", "bar", "a.b.c"])
    { database_name := "db", schema_name := "s", table_name := "v",
      base := ⟨"db", "s", "v", []⟩,
      all := some ⟨"db", "s", "v", some "SELECT * FROM s1.foo", []⟩,
      redshift := none, external := none, info := none }
    ⟨"db", "s", "v", some "SELECT * FROM s1.foo", []⟩
    "SELECT * FROM s1.foo" ["s1.foo", "bar", "a.b.c"]
    rfl rfl (by decide) rfl

/-- C6 counterexample: a well-formed singleton base list with a
malformed tuple in the `all` auxiliary list makes
`MetadataTables.__init__` raise a decoding `TypeError`, so malformed
auxiliary data does escape the core, contrary to the claim. -/
theorem claim6_counterexample :
    metadataTablesItems [PyRow.ok ⟨"db", "s", "t", []⟩] [PyRow.malformed] [] [] []
      = .error .typeError := rfl

/-- C6 (amended): the aligner core raises only on decoding errors for
malformed row tuples, whether base or auxiliary; on fully well-formed
row lists it never raises, and a dependency-parser failure on a present
view definition is swallowed, returning the empty list. -/
theorem claim6_no_raise_on_wellformed
    (tb : List MetadataTableBase) (ta : List MetadataTableAll)
    (tr : List MetadataTableRedshift) (te : List MetadataTableExternal)
    (ti : List MetadataTableInfo)
    (parse : String → Except PyError (List String)) (t : MetadataTable)
    (a : MetadataTableAll) (ddl : String) (e : PyError)
    (h1 : t.all = some a) (h2 : a.view_ddl = some ddl) (h3 : ddl ≠ "")
    (h4 : parse (stripParens ddl) = .error e) :
    metadataTablesItems (tb.map PyRow.ok) (ta.map PyRow.ok) (tr.map PyRow.ok)
        (te.map PyRow.ok) (ti.map PyRow.ok)
      = .ok (tablesPure tb ta tr te ti)
    ∧ t.dependencies parse = .ok [] :=
  ⟨metadataTablesItems_map_ok tb ta tr te ti,
   dependencies_parse_error parse t a ddl e h1 h2 h3 h4⟩

/-- C6 witness: a concrete well-formed run together with a concrete
failing parser. -/
theorem claim6_witness :
    metadataTablesItems ([⟨"db", "s", "t", []⟩].map PyRow.ok)
        (([] : List MetadataTableAll).map PyRow.ok)
        (([] : List MetadataTableRedshift).map PyRow.ok)
        (([] : List MetadataTableExternal).map PyRow.ok)
        (([] : List MetadataTableInfo).map PyRow.ok)
      = .ok (tablesPure [⟨"db", "s", "t", []⟩] [] [] [] [])
    ∧ MetadataTable.dependencies (fun _ => .error .typeError)
        { database_name := "db", schema_name := "s", table_name := "t",
          base := ⟨"db", "s", "t", []⟩,
          all := some ⟨"db", "s", "t", some "SELECT * FROM ???", []⟩,
          redshift := none, external := none, info := none }
      = .ok [] :=
  claim6_no_raise_on_wellformed [⟨"db", "s", "t", []⟩] [] [] [] []
    (fun _ => .error .typeError)
    { database_name := "db", schema_name := "s", table_name := "t",
      base := ⟨"db", "s", "t", []⟩,
      all := some ⟨"db", "s", "t", some "SELECT * FROM ???", []⟩,
      redshift := none, external := none, info := none }
    ⟨"db", "s", "t", some "SELECT * FROM ???", []⟩
    "SELECT * FROM ???" .typeError rfl rfl (by decide) rfl

/-- C7: for a present slot the projector appends exactly one
(schema-identifier, mapping) pair, the mapping being the slot's fields
with the exclusion keys removed first and the null-valued keys dropped
afterwards; for an absent slot the output list is unchanged. -/
theorem claim7_projector
    (lst : List MetadataExtension) (url : String)
    (md : List (String × Option String)) (ks : List String)
    (_hmd : (md.map Prod.fst).Nodup) (hks : ks.Nodup)
    (hmem : ∀ k ∈ ks, k ∈ md.map Prod.fst) :
    appendMetadataExtension lst url (some md) (some ks)
      = .ok (lst ++ [{ schema_url := url,
                       metadata := (md.filter (fun p => decide (p.1 ∉ ks))).filterMap
                         (fun p => p.2.map (fun v => (p.1, v))) }])
    ∧ appendMetadataExtension lst url none (some ks) = .ok lst := by
  constructor
  · simp only [appendMetadataExtension, popKeys_eq_filter ks md hks hmem]
  · rfl

/-- C7 witness: the fields a=1, b=null, c=x with exclusion set containing
only c, matching the worked example of the spec. -/
theorem claim7_witness :
    appendMetadataExtension [] "u"
        (some [("a", some "1"), ("b", none), ("c", some "x")]) (some ["c"])
      = .ok ([] ++ [{ schema_url := "u",
                      metadata := ([("a", some "1"), ("b", none),
                          ("c", some "x")].filter
                          (fun p => decide (p.1 ∉ ["c"]))).filterMap
                        (fun p => p.2.map (fun v => (p.1, v))) }])
    ∧ appendMetadataExtension [] "u" none (some ["c"]) = .ok [] :=
  claim7_projector [] "u" [("a", some "1"), ("b", none), ("c", some "x")] ["c"]
    (by decide) (by decide) (by decide)

/-- C8: the identity-key fields of every merged object equal the
corresponding fields of its base record, for all three aligners and for
arbitrary auxiliary lists, so they are never taken from an auxiliary
record. -/
theorem claim8_identity_fields_from_base :
    (∀ (sb : List MetadataSchemaBase) (sr : List MetadataSchemaRedshift)
        (se : List MetadataSchemaExternal),
      metadataSchemasItems (sb.map PyRow.ok) (sr.map PyRow.ok) (se.map PyRow.ok)
          = .ok (schemasPure sb sr se)
        ∧ (schemasPure sb sr se).map (fun m => (m.database_name, m.schema_name))
          = sb.map (fun b => (b.database_name, b.schema_name)))
    ∧ (∀ (tb : List MetadataTableBase) (ta : List MetadataTableAll)
        (tr : List MetadataTableRedshift) (te : List MetadataTableExternal)
        (ti : List MetadataTableInfo),
      metadataTablesItems (tb.map PyRow.ok) (ta.map PyRow.ok) (tr.map PyRow.ok)
          (te.map PyRow.ok) (ti.map PyRow.ok)
          = .ok (tablesPure tb ta tr te ti)
        ∧ (tablesPure tb ta tr te ti).map
            (fun m => (m.database_name, m.schema_name, m.table_name))
          = tb.map (fun b => (b.table_catalog, b.table_schema, b.table_name)))
    ∧ (∀ (cb : List MetadataColumnBase) (cr : List MetadataColumnRedshift)
        (ce : List MetadataColumnExternal),
      metadataColumnsItems (cb.map PyRow.ok) (cr.map PyRow.ok) (ce.map PyRow.ok)
          = .ok (columnsPure cb cr ce)
        ∧ (columnsPure cb cr ce).map
            (fun m => (m.database_name, m.schema_name, m.table_name,
              m.column_name, m.ordinal_position))
          = cb.map (fun b => (b.database_name, b.schema_name, b.table_name,
              b.column_name, b.ordinal_position))) :=
  ⟨fun sb sr se =>
    ⟨metadataSchemasItems_map_ok sb sr se, schemasPure_map_key sb sr se⟩,
   fun tb ta tr te ti =>
    ⟨metadataTablesItems_map_ok tb ta tr te ti, tablesPure_map_key tb ta tr te ti⟩,
   fun cb cr ce =>
    ⟨metadataColumnsItems_map_ok cb cr ce, columnsPure_map_key cb cr ce⟩⟩

/-- C9: the three aligner instantiations are deterministic functions of
their input lists; two runs on the same inputs give identical results
(in this pure embedding every modelled run is a function of the inputs,
so the two-run equality holds definitionally). -/
theorem claim9_deterministic :
    (∀ (sb : List (PyRow MetadataSchemaBase)) (sr : List (PyRow MetadataSchemaRedshift))
        (se : List (PyRow MetadataSchemaExternal)),
      metadataSchemasItems sb sr se = metadataSchemasItems sb sr se)
    ∧ (∀ (tb : List (PyRow MetadataTableBase)) (ta : List (PyRow MetadataTableAll))
        (tr : List (PyRow MetadataTableRedshift)) (te : List (PyRow MetadataTableExternal))
        (ti : List (PyRow MetadataTableInfo)),
      metadataTablesItems tb ta tr te ti = metadataTablesItems tb ta tr te ti)
    ∧ (∀ (cb : List (PyRow MetadataColumnBase)) (cr : List (PyRow MetadataColumnRedshift))
        (ce : List (PyRow MetadataColumnExternal)),
      metadataColumnsItems cb cr ce = metadataColumnsItems cb cr ce) :=
  ⟨fun _ _ _ => rfl, fun _ _ _ _ _ => rfl, fun _ _ _ => rfl⟩

/-- C10: when the exclusion set contains a key that is not among the
slot's field names, the projector raises `KeyError` (dict.pop with no
default) and appends nothing. -/
theorem claim10_missing_excluded_key_raises
    (lst : List MetadataExtension) (url : String)
    (md : List (String × Option String)) (ks : List String) (k : String)
    (hk : k ∈ ks) (hnot : k ∉ md.map Prod.fst) :
    appendMetadataExtension lst url (some md) (some ks) = .error .keyError := by
  simp only [appendMetadataExtension, popKeys_missing ks md k hk hnot]

/-- C10 witness: excluding the absent key z from the single field a. -/
theorem claim10_witness :
    appendMetadataExtension [] "u" (some [("a", some "1")]) (some ["z"])
      = .error .keyError :=
  claim10_missing_excluded_key_raises [] "u" [("a", some "1")] ["z"] "z"
    (by decide) (by decide)
